import Mathlib

/-!
# Verification of the date-tasks module

A shallow embedding in Lean 4 of `src/04-date-tasks.js` together with
theorems settling the specification claims about it.

Conventions of the embedding:

* JavaScript numbers are modelled as exact rationals (`ℚ`); timestamps and
  millisecond counts are integers (`ℤ` / `ℕ`).
* A JavaScript `Date` object's calendar fields are modelled by `GDate`
  (proleptic Gregorian year / 0-based month / 1-based day), and the
  auto-normalization performed by `setMonth` / `setDate` is modelled by
  `rollDate`, following the ECMAScript `MakeDay` semantics of keeping the
  day count and rolling an out-of-range day-of-month into the following
  months.
* Strings are modelled as `List Char`; `String.prototype.replace` with a
  string pattern (first occurrence only) is `listReplaceFirst`, the global
  match of the word-or-dot run pattern is `wordRuns`, `toFixed` is
  `jsToFixed`, `padStart` is `padStart`, `Math.trunc` is `jsTrunc` and the
  floating-point remainder operator is `jsMod`.
* Fallible operations return `Option`; a thrown exception and the
  unreachable undefined-lookup path of the formatter are both modelled as
  `none`.
-/

/-! ## §1 Calendar model and `isLeapYear` (definitions) -/

/-- The Gregorian leap-year rule (divisible by 4, and not by 100 unless
by 400), as a pure predicate on the year number. -/
def isLeapYearNum (y : Int) : Bool :=
  y % 4 == 0 && (y % 100 != 0 || y % 400 == 0)

/-- Number of days of 0-based month `m` in year `y` (ECMAScript
`DaysInMonth`). -/
def daysInMonth (y : Int) : Nat → Nat
  | 0 => 31
  | 1 => if isLeapYearNum y then 29 else 28
  | 2 => 31
  | 3 => 30
  | 4 => 31
  | 5 => 30
  | 6 => 31
  | 7 => 31
  | 8 => 30
  | 9 => 31
  | 10 => 30
  | _ => 31

/-- Calendar fields of a JavaScript `Date`: year, 0-based month (0 =
January), 1-based day-of-month. -/
structure GDate where
  year : Int
  month : Nat
  day : Nat
deriving DecidableEq, Repr

/-- Normalize an out-of-range day-of-month by rolling it into the
following months (ECMAScript day-number normalization).  The fuel is an
upper bound on the number of month steps; each step consumes at least 28
days, so fuel `d` always suffices for a day value `d ≥ 1`. -/
def rollDate : Nat → Int → Nat → Nat → GDate
  | 0, y, m, d => ⟨y, m, d⟩
  | fuel + 1, y, m, d =>
    if d ≤ daysInMonth y m then ⟨y, m, d⟩
    else if m == 11 then rollDate fuel (y + 1) 0 (d - 31)
    else rollDate fuel y (m + 1) (d - daysInMonth y m)

/-- `date.setMonth(m)`: keep the day-of-month, set the month, and
normalize (an overflowing day rolls into the next month). -/
def jsSetMonth (dt : GDate) (m : Nat) : GDate :=
  rollDate dt.day dt.year m dt.day

/-- `date.setDate(d)`: keep year and month, set the day-of-month, and
normalize. -/
def jsSetDate (dt : GDate) (d : Nat) : GDate :=
  rollDate d dt.year dt.month d

/-- The source's `isLeapYear`: mutate the argument with `setMonth(1)` and
`setDate(29)`, then test whether the day-of-month reads back as 29.  The
result is the returned boolean together with the final (mutated) state of
the caller's date object. -/
def isLeapYear (dt : GDate) : Bool × GDate :=
  let d1 := jsSetMonth dt 1
  let d2 := jsSetDate d1 29
  (d2.day == 29, d2)

/-! ## §2 Clock-angle calculator (definitions)

`angleBetweenClockHands(date)` reads the machine's local timezone offset
(`new Date().getTimezoneOffset()`, in minutes), adds it to the input
timestamp, and then extracts hour/minute fields with the local-time
accessors `getHours`/`getMinutes`.  The ambient offset is modelled as an
explicit parameter `offMin`, held constant during the call; `localTime`
is the ECMAScript conversion local = UTC − offset used by those
accessors. -/

/-- ECMAScript `HourFromTime`: `floor(t / msPerHour) modulo 24`. -/
def hourFromTime (t : Int) : Int := Int.fdiv t 3600000 % 24

/-- ECMAScript `MinFromTime`: `floor(t / msPerMinute) modulo 60`. -/
def minFromTime (t : Int) : Int := Int.fdiv t 60000 % 60

/-- ECMAScript `LocalTime` for a constant offset of `offMin` minutes. -/
def localTime (offMin v : Int) : Int := v - offMin * 60000

/-- `dateObject.getHours()` under ambient offset `offMin`. -/
def jsGetHours (offMin v : Int) : Int := hourFromTime (localTime offMin v)

/-- `dateObject.getMinutes()` under ambient offset `offMin`. -/
def jsGetMinutes (offMin v : Int) : Int := minFromTime (localTime offMin v)

/-- The source's local helper `delta = (n, max) => (n <= max ? n : max * 2 - n)`. -/
def jsDelta (n max : ℚ) : ℚ := if n ≤ max then n else max * 2 - n

/-- The source's `angleBetweenClockHands` up to (but not including) the final
conversion to radians: the normalized angle in degrees, an exact rational.
`offMin` is the ambient local-timezone offset in minutes and `t` the input
timestamp in milliseconds. -/
def angleBetweenClockHandsDeg (offMin t : Int) : ℚ :=
  let timezoneOffset : Int := offMin * 60000
  let dateObject : Int := t + timezoneOffset
  let hourDegPerMinute : ℚ := 1 / 2
  let minuteDegPerMinute : ℚ := 6
  let clockwise : Int := 12
  let minutesInHour : ℚ := 60
  let hours : Int := jsGetHours offMin dateObject % clockwise
  let minutes : Int := jsGetMinutes offMin dateObject
  let hourHandAngle : ℚ := hourDegPerMinute * (minutesInHour * (hours : ℚ) + (minutes : ℚ))
  let minuteHandAngle : ℚ := minuteDegPerMinute * (minutes : ℚ)
  let angleBetweenHands : ℚ := |hourHandAngle - minuteHandAngle|
  jsDelta angleBetweenHands 180

/-- The source's `angleBetweenClockHands`: the degree result converted once
to radians by `degToRadians = (deg) => (deg / 180) * Math.PI`. -/
noncomputable def angleBetweenClockHands (offMin t : Int) : ℝ :=
  ((angleBetweenClockHandsDeg offMin t : ℚ) : ℝ) / 180 * Real.pi

/-! ## §3 Duration formatter (definitions) -/

/-- The word-character class of the regular expression `\w`. -/
def isWordChar (c : Char) : Bool := c.isAlphanum || c = '_'

/-- The character class `[\w.]` of the formatter's field pattern. -/
def isWordOrDot (c : Char) : Bool := isWordChar c || c = '.'

/-- Scanner for the global match of one-or-more `[\w.]` runs: accumulates
the current run (reversed) and emits maximal runs in order. -/
def wordRunsAux : List Char → List Char → List (List Char)
  | [], acc => if acc.isEmpty then [] else [acc.reverse]
  | c :: cs, acc =>
    if isWordOrDot c then wordRunsAux cs (c :: acc)
    else if acc.isEmpty then wordRunsAux cs [] else acc.reverse :: wordRunsAux cs []

/-- `format.match(/([\w.]+)/g)`: the list of maximal runs of word-or-dot
characters, in order ( `[]` plays the role of the `null` result). -/
def wordRuns (s : List Char) : List (List Char) := wordRunsAux s []

/-- `String.prototype.replace` with a string pattern: replace the first
occurrence of `pat` (if any) by `rep`. -/
def listReplaceFirst : List Char → List Char → List Char → List Char
  | [], _, _ => []
  | c :: cs, pat, rep =>
    if pat.isPrefixOf (c :: cs) then rep ++ (c :: cs).drop pat.length
    else c :: listReplaceFirst cs pat rep

/-- `String.prototype.padStart(w, c)`. -/
def padStart (w : Nat) (c : Char) (s : List Char) : List Char :=
  List.replicate (w - s.length) c ++ s

/-- Decimal digit emitter (most significant first); the fuel dominates the
number of digits, so `n + 1` always suffices. -/
def natDigitsAux : Nat → Nat → List Char → List Char
  | 0, _, acc => acc
  | fuel + 1, n, acc =>
    if n < 10 then Nat.digitChar n :: acc
    else natDigitsAux fuel (n / 10) (Nat.digitChar (n % 10) :: acc)

/-- Decimal representation of a natural number. -/
def natToDigits (n : Nat) : List Char := natDigitsAux (n + 1) n []

/-- `Math.trunc` on exact rationals: round toward zero. -/
def jsTrunc (q : ℚ) : Int := if q < 0 then ⌈q⌉ else ⌊q⌋

/-- The `%` operator of JavaScript on numbers (sign of the dividend):
`x % y = x - y * trunc(x / y)`. -/
def jsMod (x y : ℚ) : ℚ := x - y * (jsTrunc (x / y) : ℚ)

/-- `Number.prototype.toFixed(f)` for a non-negative exact rational: the
closest `f`-digit decimal, ties resolved upward (the standard's
"pick the larger n"). -/
def jsToFixedNN (q : ℚ) (f : Nat) : List Char :=
  let n : Nat := (⌊q * 10 ^ f + 1 / 2⌋).toNat
  if f = 0 then natToDigits n
  else natToDigits (n / 10 ^ f) ++ '.' :: padStart f '0' (natToDigits (n % 10 ^ f))

/-- `Number.prototype.toFixed(f)` on exact rationals: the sign is split off
first, then the magnitude is rounded (ties away from zero). -/
def jsToFixed (q : ℚ) (f : Nat) : List Char :=
  if q < 0 then '-' :: jsToFixedNN (-q) f else jsToFixedNN q f

/-- The three time units of the formatter's `timeCodeDict`. -/
inductive TimeType
  | hour
  | minute
  | second
deriving DecidableEq, Repr

/-- The lookup `timeCodeDict[code.match(/\w/)]`; `none` models the
`undefined` result for an unrecognized unit character. -/
def timeCodeDict (c : Char) : Option TimeType :=
  if c = 'H' then some TimeType.hour
  else if c = 'm' then some TimeType.minute
  else if c = 's' then some TimeType.second
  else none

/-- The `timeCoefficient` table (milliseconds per unit). -/
def timeCoefficient : TimeType → ℚ
  | TimeType.hour => 3600000
  | TimeType.minute => 60000
  | TimeType.second => 1000

/-- The `timeMax` table (wrap bound per unit). -/
def timeMax : TimeType → ℚ
  | TimeType.hour => 24
  | TimeType.minute => 60
  | TimeType.second => 60

/-- `code.match(/\w/)`: the first word character of the field code. -/
def firstWordChar (l : List Char) : Option Char := l.find? isWordChar

/-- The object built by `parseTimeCode` for one template field. -/
structure EncodedTime where
  code : List Char
  type : TimeType
  length : Nat
  floatPoint : Option Nat
  value : ℚ

/-- JavaScript truthiness of the (possibly `undefined`) `floatPoint`
index: `undefined` and `0` are falsy. -/
def optTruthy : Option Nat → Bool
  | some n => n != 0
  | none => false

/-- The source's inner `parseTimeCode`: determine the unit from the first
word character, record the field length and the index of a literal dot
(`-1` becoming `undefined`, modelled as `none`), and compute the wrapped,
truncated field value.  `none` models the unreachable lookup failure for a
code with no recognized unit character. -/
def parseTimeCode (time : ℚ) (code : List Char) : Option EncodedTime :=
  match firstWordChar code with
  | none => none
  | some c =>
    match timeCodeDict c with
    | none => none
    | some ty =>
      let length := code.length
      let floatPoint : Option Nat := code.findIdx? (· == '.')
      let pow : ℚ := if optTruthy floatPoint then 10 ^ length else 1
      let value0 : ℚ := jsMod (time / timeCoefficient ty) (timeMax ty)
      let value : ℚ := (jsTrunc (value0 * pow) : ℚ) / pow
      some ⟨code, ty, length, floatPoint, value⟩

/-- The `toString` method of the encoded field:
`value.toFixed(floatPoint ? length - floatPoint - 1 : 0).padStart(length, '0')`. -/
def EncodedTime.render (e : EncodedTime) : List Char :=
  let digitsAfter : Nat :=
    match e.floatPoint with
    | some fp => if fp ≠ 0 then e.length - fp - 1 else 0
    | none => 0
  padStart e.length '0' (jsToFixed e.value digitsAfter)

/-- The source's inner `formatTime`: scan the template for fields, encode
each, and substitute each field code by its rendering, left to right.
`none` models the `TypeError` thrown on a match-less template and the
unreachable unrecognized-unit lookup. -/
def formatTime (format : List Char) (time : ℚ) : Option (List Char) :=
  let matched := wordRuns format
  if matched.isEmpty then none
  else
    (matched.mapM (parseTimeCode time)).map fun data =>
      data.foldl (fun output e => listReplaceFirst output e.code e.render) format

/-- The fixed template `'HH:mm:ss.sss'` of `timeSpanToString`. -/
def templateHHmmssSss : List Char := "HH:mm:ss.sss".data

/-- The source's `timeSpanToString`: format the millisecond difference of
the two timestamps with the fixed template. -/
def timeSpanToString (startMs endMs : Int) : Option (List Char) :=
  formatTime templateHHmmssSss ((endMs : ℚ) - (startMs : ℚ))

/-- The field code `HH` of the fixed template. -/
def hhCode : List Char := ['H', 'H']

/-- The field code `mm` of the fixed template. -/
def mmCode : List Char := ['m', 'm']

/-- The field code `ss.sss` of the fixed template (one run, because the
dot is part of the scanned character class). -/
def ssCode : List Char := ['s', 's', '.', 's', 's', 's']

/-- Expected rendering of the hour field of an integer millisecond
duration: `trunc(t / 3600000) mod 24`, two digits, zero-padded. -/
def renderedHH (t : ℕ) : List Char := padStart 2 '0' (natToDigits (t / 3600000 % 24))

/-- Expected rendering of the minute field: `trunc(t / 60000) mod 60`. -/
def renderedMm (t : ℕ) : List Char := padStart 2 '0' (natToDigits (t / 60000 % 60))

/-- Expected rendering of the seconds-with-fraction field:
`trunc(t / 1000) mod 60`, a dot, and the exact millisecond remainder as
three digits. -/
def renderedSsSss (t : ℕ) : List Char :=
  padStart 6 '0' (natToDigits (t / 1000 % 60) ++ '.' :: padStart 3 '0' (natToDigits (t % 1000)))

/-- Expected full rendering of an integer millisecond duration under the
fixed template. -/
def renderedSpan (t : ℕ) : List Char :=
  renderedHH t ++ ':' :: (renderedMm t ++ ':' :: renderedSsSss t)

/-! ## §4 The delegating parse functions (definitions) -/

/-- Outcome of a JavaScript call: a returned number (with `none` as the
NaN sentinel), or a thrown exception. -/
inductive JsOutcome
  | ret (v : Option Int)
  | thrown
deriving DecidableEq, Repr

/-- Modelled from the spec: `Date.parse`, the standard date-string parser
both source functions delegate to; the parser itself is not part of the
repository.  Per the standard, an input that matches no supported date
grammar yields the sentinel NaN, modelled as `none`; the probe string used
in the theorems below matches no date grammar.  Recognized inputs are
modelled by the doc-comment examples of the source. -/
def jsDateParse (value : String) : Option Int :=
  if value = "2016-01-19T08:07:37Z" then some 1453190857000
  else if value = "Tue, 26 Jan 2016 13:48:02 GMT" then some 1453816082000
  else none

/-- The source's `parseDataFromRfc2822`: `return Date.parse(value)` — the
parser's result (NaN included) is returned unchanged, and the function body
has no throwing operation. -/
def parseDataFromRfc2822 (value : String) : JsOutcome := JsOutcome.ret (jsDateParse value)

/-- The source's `parseDataFromIso8601`: identical delegation. -/
def parseDataFromIso8601 (value : String) : JsOutcome := JsOutcome.ret (jsDateParse value)

/-! ## §5 Calendar theorems (claims C1 and C4) -/

theorem rollDate_stop (fuel : Nat) (y : Int) (m d : Nat) (h : d ≤ daysInMonth y m) :
    rollDate fuel y m d = ⟨y, m, d⟩ := by
  cases fuel with
  | zero => rfl
  | succ n => simp [rollDate, h]

theorem rollDate_step (fuel : Nat) (y : Int) (m d : Nat) (h0 : 0 < fuel)
    (h : ¬ d ≤ daysInMonth y m) (hm : m ≠ 11) :
    rollDate fuel y m d = rollDate (fuel - 1) y (m + 1) (d - daysInMonth y m) := by
  obtain ⟨f, rfl⟩ : ∃ f, fuel = f + 1 := ⟨fuel - 1, by omega⟩
  simp [rollDate, h, hm]

theorem daysFeb (y : Int) : daysInMonth y 1 = 29 ∨ daysInMonth y 1 = 28 := by
  unfold daysInMonth
  by_cases h : isLeapYearNum y <;> simp [h]

/-- After the `setMonth(1)`/`setDate(29)` probe the date always sits in
February or March (0-based months 1 and 2), whatever the input date was. -/
theorem isLeapYear_snd_month (y : Int) (m d : Nat) (h1 : 1 ≤ d) (h31 : d ≤ 31) :
    (isLeapYear ⟨y, m, d⟩).snd.month = 1 ∨ (isLeapYear ⟨y, m, d⟩).snd.month = 2 := by
  have h2 : daysInMonth y 2 = 31 := rfl
  unfold isLeapYear jsSetMonth
  simp only
  by_cases hf : d ≤ daysInMonth y 1
  · rw [rollDate_stop d y 1 d hf]
    unfold jsSetDate
    simp only
    by_cases hl : 29 ≤ daysInMonth y 1
    · rw [rollDate_stop 29 y 1 29 hl]
      left; rfl
    · rw [rollDate_step 29 y 1 29 (by norm_num) hl (by norm_num)]
      norm_num
      rw [rollDate_stop 28 y 2 (29 - daysInMonth y 1) (by omega)]
      right; rfl
  · rw [rollDate_step d y 1 d (by omega) hf (by norm_num)]
    norm_num
    rw [rollDate_stop (d - 1) y 2 (d - daysInMonth y 1)
      (by rcases daysFeb y with h | h <;> omega)]
    unfold jsSetDate
    simp only
    rw [rollDate_stop 29 y 2 29 (by omega)]
    right; rfl

/-- C1: the source's `isLeapYear` disagrees with the Gregorian rule.  At the
input date January 30, 1900 it returns `true`, yet 1900 is not a leap year:
`setMonth(1)` rolls the nonexistent February 30 into March, after which the
day-29 probe reads back 29 regardless of the year. -/
theorem isLeapYear_violates_gregorian_rule :
    (isLeapYear ⟨1900, 0, 30⟩).fst = true ∧ isLeapYearNum 1900 = false ∧
      (isLeapYear ⟨1900, 0, 30⟩).fst ≠ isLeapYearNum 1900 := by
  decide

/-- C4: counterexample to "isLeapYear mutates no caller-visible state" — for
the input date January 1, 2015 the call leaves the caller's date object at
March 1, 2015 (the rolled-over February 29 probe), not at its original value. -/
theorem isLeapYear_frame_counterexample :
    (isLeapYear ⟨2015, 0, 1⟩).snd = ⟨2015, 2, 1⟩ ∧
      (isLeapYear ⟨2015, 0, 1⟩).snd ≠ ⟨2015, 0, 1⟩ := by
  decide

/-- C4 (amended): `isLeapYear` mutates its argument.  After the call the
caller's date always sits in February or March (0-based months 1 and 2), so
every input date whose month is not February or March is visibly changed by
the call. -/
theorem isLeapYear_mutates_caller_date (y : Int) (m d : Nat)
    (h1 : 1 ≤ d) (h31 : d ≤ 31) :
    ((isLeapYear ⟨y, m, d⟩).snd.month = 1 ∨ (isLeapYear ⟨y, m, d⟩).snd.month = 2) ∧
      (m ≠ 1 ∧ m ≠ 2 → (isLeapYear ⟨y, m, d⟩).snd ≠ ⟨y, m, d⟩) := by
  refine ⟨isLeapYear_snd_month y m d h1 h31, fun hm heq => ?_⟩
  rcases isLeapYear_snd_month y m d h1 h31 with h | h <;> rw [heq] at h <;> simp_all

/-- C4 (witness): the amended theorem applied at January 1, 2015. -/
theorem isLeapYear_mutates_caller_date_witness :
    ((isLeapYear ⟨2015, 0, 1⟩).snd.month = 1 ∨ (isLeapYear ⟨2015, 0, 1⟩).snd.month = 2) ∧
      ((0 : Nat) ≠ 1 ∧ (0 : Nat) ≠ 2 → (isLeapYear ⟨2015, 0, 1⟩).snd ≠ ⟨2015, 0, 1⟩) :=
  isLeapYear_mutates_caller_date 2015 0 1 (by decide) (by decide)

/-! ## §6 Clock-angle theorems (claims C5, C6 and C9) -/

theorem jsDelta_bounds (n : ℚ) (h0 : 0 ≤ n) (h360 : n ≤ 360) :
    0 ≤ jsDelta n 180 ∧ jsDelta n 180 ≤ 180 := by
  unfold jsDelta
  split <;> constructor <;> linarith

/-- The degree-level result always lies in `[0, 180]`. -/
theorem angleBetweenClockHandsDeg_bounds (offMin t : Int) :
    0 ≤ angleBetweenClockHandsDeg offMin t ∧ angleBetweenClockHandsDeg offMin t ≤ 180 := by
  simp only [angleBetweenClockHandsDeg, jsGetMinutes, minFromTime]
  generalize jsGetHours offMin (t + offMin * 60000) = H
  generalize Int.fdiv (localTime offMin (t + offMin * 60000)) 60000 = M
  have hH0 : (0 : Int) ≤ H % 12 := Int.emod_nonneg _ (by norm_num)
  have hH1 : H % 12 < 12 := Int.emod_lt_of_pos _ (by norm_num)
  have hM0 : (0 : Int) ≤ M % 60 := Int.emod_nonneg _ (by norm_num)
  have hM1 : M % 60 < 60 := Int.emod_lt_of_pos _ (by norm_num)
  have qH0 : (0 : ℚ) ≤ ((H % 12 : Int) : ℚ) := by exact_mod_cast hH0
  have qH1 : ((H % 12 : Int) : ℚ) < 12 := by exact_mod_cast hH1
  have qM0 : (0 : ℚ) ≤ ((M % 60 : Int) : ℚ) := by exact_mod_cast hM0
  have qM1 : ((M % 60 : Int) : ℚ) < 60 := by exact_mod_cast hM1
  apply jsDelta_bounds
  · exact abs_nonneg _
  · rw [abs_le]
    constructor <;> linarith

/-- C5: for every ambient timezone offset and every input timestamp, the
clock-hands angle lies in the closed interval `[0, π]` radians — the smaller
of the two angles between the hands, never negative and never above `π`. -/
theorem angleBetweenClockHands_range (offMin t : Int) :
    0 ≤ angleBetweenClockHands offMin t ∧ angleBetweenClockHands offMin t ≤ Real.pi := by
  obtain ⟨h0, h1⟩ := angleBetweenClockHandsDeg_bounds offMin t
  have r0 : (0 : ℝ) ≤ ((angleBetweenClockHandsDeg offMin t : ℚ) : ℝ) := by exact_mod_cast h0
  have r1 : ((angleBetweenClockHandsDeg offMin t : ℚ) : ℝ) ≤ 180 := by exact_mod_cast h1
  unfold angleBetweenClockHands
  constructor
  · exact mul_nonneg (div_nonneg r0 (by norm_num)) Real.pi_pos.le
  · have hdiv : ((angleBetweenClockHandsDeg offMin t : ℚ) : ℝ) / 180 ≤ 1 := by
      rw [div_le_one (by norm_num)]
      exact r1
    calc ((angleBetweenClockHandsDeg offMin t : ℚ) : ℝ) / 180 * Real.pi
        ≤ 1 * Real.pi := mul_le_mul_of_nonneg_right hdiv Real.pi_pos.le
      _ = Real.pi := one_mul _

theorem angleBetweenClockHandsDeg_tz_invariant (offMin t : Int) :
    angleBetweenClockHandsDeg offMin t = angleBetweenClockHandsDeg 0 t := by
  simp only [angleBetweenClockHandsDeg, jsGetHours, jsGetMinutes, localTime]
  have e1 : t + offMin * 60000 - offMin * 60000 = t := by ring
  have e2 : t + 0 * 60000 - 0 * 60000 = t := by ring
  rw [e1, e2]

theorem angleDeg_ex00 : angleBetweenClockHandsDeg 0 0 = 0 := by
  have hH : jsGetHours 0 (0 + 0 * 60000) % 12 = 0 := by decide
  have hM : jsGetMinutes 0 (0 + 0 * 60000) = 0 := by decide
  simp only [angleBetweenClockHandsDeg, hH, hM, jsDelta]
  norm_num

theorem angleDeg_ex03 : angleBetweenClockHandsDeg 0 10800000 = 90 := by
  have hH : jsGetHours 0 (10800000 + 0 * 60000) % 12 = 3 := by decide
  have hM : jsGetMinutes 0 (10800000 + 0 * 60000) = 0 := by decide
  simp only [angleBetweenClockHandsDeg, hH, hM, jsDelta]
  norm_num

theorem angleDeg_ex18 : angleBetweenClockHandsDeg 0 64800000 = 180 := by
  have hH : jsGetHours 0 (64800000 + 0 * 60000) % 12 = 6 := by decide
  have hM : jsGetMinutes 0 (64800000 + 0 * 60000) = 0 := by decide
  simp only [angleBetweenClockHandsDeg, hH, hM, jsDelta]
  norm_num

theorem angleDeg_ex21 : angleBetweenClockHandsDeg 0 75600000 = 90 := by
  have hH : jsGetHours 0 (75600000 + 0 * 60000) % 12 = 9 := by decide
  have hM : jsGetMinutes 0 (75600000 + 0 * 60000) = 0 := by decide
  simp only [angleBetweenClockHandsDeg, hH, hM, jsDelta]
  norm_num

/-- C6: the function is timezone-independent and deterministic: under any
constant ambient offset the result equals the offset-zero result (the added
offset cancels against the local-time read), and the UTC examples hold:
0:00 → 0, 3:00 → π/2, 18:00 → π, 21:00 → π/2. -/
theorem angleBetweenClockHands_tz_independent :
    (∀ offMin t : Int, angleBetweenClockHands offMin t = angleBetweenClockHands 0 t) ∧
      angleBetweenClockHands 0 0 = 0 ∧
      angleBetweenClockHands 0 10800000 = Real.pi / 2 ∧
      angleBetweenClockHands 0 64800000 = Real.pi ∧
      angleBetweenClockHands 0 75600000 = Real.pi / 2 := by
  refine ⟨fun offMin t => ?_, ?_, ?_, ?_, ?_⟩
  · unfold angleBetweenClockHands
    rw [angleBetweenClockHandsDeg_tz_invariant]
  · unfold angleBetweenClockHands
    rw [angleDeg_ex00]
    push_cast
    ring
  · unfold angleBetweenClockHands
    rw [angleDeg_ex03]
    push_cast
    ring
  · unfold angleBetweenClockHands
    rw [angleDeg_ex18]
    push_cast
    ring
  · unfold angleBetweenClockHands
    rw [angleDeg_ex21]
    push_cast
    ring

theorem angleBetweenClockHandsDeg_periodic (offMin t : Int) :
    angleBetweenClockHandsDeg offMin (t + 43200000) = angleBetweenClockHandsDeg offMin t := by
  simp only [angleBetweenClockHandsDeg, jsGetHours, jsGetMinutes, localTime, hourFromTime,
    minFromTime]
  have e : t + 43200000 + offMin * 60000 - offMin * 60000
      = t + offMin * 60000 - offMin * 60000 + 43200000 := by ring
  rw [e]
  generalize t + offMin * 60000 - offMin * 60000 = x
  have h1 : Int.fdiv (x + 43200000) 3600000 = Int.fdiv x 3600000 + 12 := by
    rw [Int.fdiv_eq_ediv _ (by norm_num), Int.fdiv_eq_ediv _ (by norm_num)]
    omega
  have h2 : Int.fdiv (x + 43200000) 60000 = Int.fdiv x 60000 + 720 := by
    rw [Int.fdiv_eq_ediv _ (by norm_num), Int.fdiv_eq_ediv _ (by norm_num)]
    omega
  rw [h1, h2]
  have h3 : (Int.fdiv x 3600000 + 12) % 24 % 12 = Int.fdiv x 3600000 % 24 % 12 := by
    omega
  have h4 : (Int.fdiv x 60000 + 720) % 60 = Int.fdiv x 60000 % 60 := by
    omega
  rw [h3, h4]

/-- C9: the clock-hands angle is periodic with period 12 hours
(43,200,000 ms), under every ambient timezone offset. -/
theorem angleBetweenClockHands_periodic_12h (offMin t : Int) :
    angleBetweenClockHands offMin (t + 43200000) = angleBetweenClockHands offMin t := by
  unfold angleBetweenClockHands
  rw [angleBetweenClockHandsDeg_periodic]

/-! ## §7 Duration-formatter theorems (claims C2, C7, C8 and C10) -/

theorem parseTimeCode_hh (time : ℚ) :
    parseTimeCode time hhCode
      = some ⟨hhCode, TimeType.hour, 2, none, (jsTrunc (jsMod (time / 3600000) 24) : ℚ)⟩ := by
  have h : parseTimeCode time hhCode
      = some ⟨hhCode, TimeType.hour, 2, none,
          (jsTrunc (jsMod (time / 3600000) 24 * 1) : ℚ) / 1⟩ := rfl
  rw [h, mul_one, div_one]

theorem parseTimeCode_mm (time : ℚ) :
    parseTimeCode time mmCode
      = some ⟨mmCode, TimeType.minute, 2, none, (jsTrunc (jsMod (time / 60000) 60) : ℚ)⟩ := by
  have h : parseTimeCode time mmCode
      = some ⟨mmCode, TimeType.minute, 2, none,
          (jsTrunc (jsMod (time / 60000) 60 * 1) : ℚ) / 1⟩ := rfl
  rw [h, mul_one, div_one]

theorem parseTimeCode_ss (time : ℚ) :
    parseTimeCode time ssCode
      = some ⟨ssCode, TimeType.second, 6, some 2,
          (jsTrunc (jsMod (time / 1000) 60 * 10 ^ 6) : ℚ) / 10 ^ 6⟩ := rfl

theorem jsTrunc_nonneg (q : ℚ) (h : 0 ≤ q) : jsTrunc q = ⌊q⌋ := by
  unfold jsTrunc
  rw [if_neg (not_lt.mpr h)]

theorem floor_natCast_div (a c : ℕ) : ⌊(a : ℚ) / (c : ℚ)⌋ = ((a / c : ℕ) : ℤ) := by
  have h0 : (0 : ℚ) ≤ (a : ℚ) / (c : ℚ) := by positivity
  rw [← Int.natCast_floor_eq_floor h0]
  exact_mod_cast Nat.floor_div_eq_div (α := ℚ) a c

theorem jsMod_natCast_div (t c m : ℕ) (hc : 0 < c) (hm : 0 < m) :
    jsMod ((t : ℚ) / (c : ℚ)) (m : ℚ) = ((t % (c * m) : ℕ) : ℚ) / (c : ℚ) := by
  unfold jsMod
  have hdd : ((t : ℚ) / c) / (m : ℚ) = (t : ℚ) / ((c * m : ℕ) : ℚ) := by
    push_cast
    rw [div_div]
  rw [hdd, jsTrunc_nonneg _ (by positivity), floor_natCast_div t (c * m)]
  have key : (c : ℚ) * (m : ℚ) * ((t / (c * m) : ℕ) : ℚ) + ((t % (c * m) : ℕ) : ℚ) = (t : ℚ) := by
    exact_mod_cast congrArg (Nat.cast : ℕ → ℚ) (Nat.div_add_mod t (c * m))
  have hq : (((t / (c * m) : ℕ) : ℤ) : ℚ) = ((t / (c * m) : ℕ) : ℚ) := Int.cast_natCast _
  have hc0 : (c : ℚ) ≠ 0 := by positivity
  rw [hq, ← key]
  field_simp
  ring

theorem value_int_field (t c m : ℕ) (hc : 0 < c) (hm : 0 < m) :
    (jsTrunc (jsMod ((t : ℚ) / (c : ℚ)) (m : ℚ)) : ℚ) = ((t / c % m : ℕ) : ℚ) := by
  rw [jsMod_natCast_div t c m hc hm, jsTrunc_nonneg _ (by positivity), floor_natCast_div,
    Nat.mod_mul_right_div_self]
  exact Int.cast_natCast _

theorem value_hour (t : ℕ) :
    (jsTrunc (jsMod ((t : ℚ) / 3600000) 24) : ℚ) = ((t / 3600000 % 24 : ℕ) : ℚ) := by
  have h := value_int_field t 3600000 24 (by norm_num) (by norm_num)
  exact_mod_cast h

theorem value_minute (t : ℕ) :
    (jsTrunc (jsMod ((t : ℚ) / 60000) 60) : ℚ) = ((t / 60000 % 60 : ℕ) : ℚ) := by
  have h := value_int_field t 60000 60 (by norm_num) (by norm_num)
  exact_mod_cast h

theorem jsMod_second (t : ℕ) :
    jsMod ((t : ℚ) / 1000) 60 = ((t % 60000 : ℕ) : ℚ) / 1000 := by
  have h := jsMod_natCast_div t 1000 60 (by norm_num) (by norm_num)
  exact_mod_cast h

theorem floor_natCast_add_half (j : ℕ) : ⌊((j : ℕ) : ℚ) + 1 / 2⌋ = (j : ℤ) := by
  have h : ((j : ℕ) : ℚ) = (((j : ℕ) : ℤ) : ℚ) := by push_cast; ring
  rw [h, Int.floor_int_add]
  have h2 : ⌊(1 / 2 : ℚ)⌋ = 0 := by
    rw [Int.floor_eq_zero_iff]
    constructor <;> norm_num
  rw [h2, add_zero]

theorem jsToFixed_natCast (j : ℕ) : jsToFixed ((j : ℕ) : ℚ) 0 = natToDigits j := by
  unfold jsToFixed
  rw [if_neg (not_lt.mpr (by positivity))]
  unfold jsToFixedNN
  simp only [pow_zero, mul_one, floor_natCast_add_half, Int.toNat_natCast,
    eq_self_iff_true, if_true]

theorem jsToFixed_div1000 (a : ℕ) :
    jsToFixed (((a : ℕ) : ℚ) / 1000) 3
      = natToDigits (a / 1000) ++ '.' :: padStart 3 '0' (natToDigits (a % 1000)) := by
  unfold jsToFixed
  rw [if_neg (not_lt.mpr (by positivity))]
  unfold jsToFixedNN
  have h1 : ((a : ℕ) : ℚ) / 1000 * 10 ^ 3 + 1 / 2 = ((a : ℕ) : ℚ) + 1 / 2 := by
    ring
  simp only [h1, floor_natCast_add_half, Int.toNat_natCast]
  norm_num

theorem value_second (t : ℕ) :
    (jsTrunc (jsMod ((t : ℚ) / 1000) 60 * 10 ^ 6) : ℚ) / 10 ^ 6
      = ((t % 60000 : ℕ) : ℚ) / 1000 := by
  rw [jsMod_second]
  have h1 : ((t % 60000 : ℕ) : ℚ) / 1000 * 10 ^ 6 = ((t % 60000 * 1000 : ℕ) : ℚ) := by
    push_cast
    ring
  rw [h1, jsTrunc_nonneg _ (by positivity), Int.floor_natCast, Int.cast_natCast, Nat.cast_mul]
  norm_num
  ring

theorem render_int_field (code : List Char) (ty : TimeType) (j : ℕ) :
    EncodedTime.render ⟨code, ty, 2, none, ((j : ℕ) : ℚ)⟩ = padStart 2 '0' (natToDigits j) := by
  show padStart 2 '0' (jsToFixed ((j : ℕ) : ℚ) 0) = _
  rw [jsToFixed_natCast]

theorem render_ss_field (a : ℕ) :
    EncodedTime.render ⟨ssCode, TimeType.second, 6, some 2, ((a : ℕ) : ℚ) / 1000⟩
      = padStart 6 '0' (natToDigits (a / 1000) ++ '.' :: padStart 3 '0' (natToDigits (a % 1000))) := by
  show padStart 6 '0' (jsToFixed (((a : ℕ) : ℚ) / 1000) 3) = _
  rw [jsToFixed_div1000]

theorem digitChar_isDigit (n : ℕ) (h : n < 10) : (Nat.digitChar n).isDigit = true := by
  interval_cases n <;> decide

theorem mem_natDigitsAux (fuel : ℕ) : ∀ (n : ℕ) (acc : List Char) (c : Char),
    (∀ x ∈ acc, x.isDigit = true) → c ∈ natDigitsAux fuel n acc → c.isDigit = true := by
  induction fuel with
  | zero => exact fun n acc c hacc hc => hacc c hc
  | succ f ih =>
    intro n acc c hacc hc
    unfold natDigitsAux at hc
    split at hc
    · rcases List.mem_cons.mp hc with rfl | h
      · exact digitChar_isDigit n (by omega)
      · exact hacc c h
    · refine ih (n / 10) _ c ?_ hc
      intro x hx
      rcases List.mem_cons.mp hx with rfl | h
      · exact digitChar_isDigit (n % 10) (Nat.mod_lt _ (by norm_num))
      · exact hacc x h

theorem mem_natToDigits_isDigit (n : ℕ) (c : Char) (hc : c ∈ natToDigits n) :
    c.isDigit = true :=
  mem_natDigitsAux (n + 1) n [] c (by simp) hc

theorem mem_padStart (w : Nat) (p : Char) (s : List Char) (c : Char) (hc : c ∈ padStart w p s) :
    c = p ∨ c ∈ s := by
  unfold padStart at hc
  rcases List.mem_append.mp hc with h | h
  · exact Or.inl (List.eq_of_mem_replicate h)
  · exact Or.inr h

theorem listReplaceFirst_here (pat rest rep : List Char) (h : pat ≠ []) :
    listReplaceFirst (pat ++ rest) pat rep = rep ++ rest := by
  cases pat with
  | nil => exact absurd rfl h
  | cons c0 pt =>
    show listReplaceFirst (c0 :: (pt ++ rest)) (c0 :: pt) rep = rep ++ rest
    unfold listReplaceFirst
    rw [if_pos]
    · congr 1
      rw [show c0 :: (pt ++ rest) = (c0 :: pt) ++ rest from rfl, List.drop_left]
    · rw [show c0 :: (pt ++ rest) = (c0 :: pt) ++ rest from rfl]
      exact List.isPrefixOf_iff_prefix.mpr (List.prefix_append _ _)

theorem listReplaceFirst_skip (a : List Char) (s pat rep : List Char) (c0 : Char)
    (pt : List Char) (hpat : pat = c0 :: pt) (hnin : c0 ∉ a) :
    listReplaceFirst (a ++ s) pat rep = a ++ listReplaceFirst s pat rep := by
  induction a with
  | nil => simp
  | cons x xs ih =>
    have hx : c0 ≠ x := fun he => hnin (he ▸ List.mem_cons_self x xs)
    have hcond : ¬ pat.isPrefixOf (x :: (xs ++ s)) = true := by
      subst hpat
      simp [List.isPrefixOf, hx]
    show listReplaceFirst (x :: (xs ++ s)) pat rep = x :: (xs ++ listReplaceFirst s pat rep)
    conv_lhs => rw [listReplaceFirst]
    rw [if_neg hcond, ih (fun hm => hnin (List.mem_cons_of_mem x hm))]

theorem listReplaceFirst_skip_cons (x : Char) (s pat rep : List Char) (c0 : Char)
    (pt : List Char) (hpat : pat = c0 :: pt) (hx : c0 ≠ x) :
    listReplaceFirst (x :: s) pat rep = x :: listReplaceFirst s pat rep := by
  have h := listReplaceFirst_skip [x] s pat rep c0 pt hpat (by simp [hx])
  simpa using h

theorem listReplaceFirst_self (pat rep : List Char) (h : pat ≠ []) :
    listReplaceFirst pat pat rep = rep := by
  have h2 := listReplaceFirst_here pat [] rep h
  simpa using h2

theorem char_not_mem_pad_digits (c : Char) (hc : ¬ c.isDigit = true) (w n : ℕ) :
    c ∉ padStart w '0' (natToDigits n) := by
  intro h
  rcases mem_padStart _ _ _ _ h with rfl | h2
  · exact hc (by decide)
  · exact hc (mem_natToDigits_isDigit _ _ h2)

/-- The central characterization: on an integer (hence every realizable)
millisecond duration the formatter succeeds and produces exactly the
wrapped, zero-padded field renderings of `renderedSpan`. -/
theorem formatTime_natCast (t : ℕ) :
    formatTime templateHHmmssSss ((t : ℕ) : ℚ) = some (renderedSpan t) := by
  have hruns : wordRuns templateHHmmssSss = [hhCode, mmCode, ssCode] := rfl
  simp only [formatTime, hruns]
  have hmapM : List.mapM (parseTimeCode ((t : ℕ) : ℚ)) [hhCode, mmCode, ssCode]
      = some [⟨hhCode, TimeType.hour, 2, none,
                (jsTrunc (jsMod (((t : ℕ) : ℚ) / 3600000) 24 * 1) : ℚ) / 1⟩,
              ⟨mmCode, TimeType.minute, 2, none,
                (jsTrunc (jsMod (((t : ℕ) : ℚ) / 60000) 60 * 1) : ℚ) / 1⟩,
              ⟨ssCode, TimeType.second, 6, some 2,
                (jsTrunc (jsMod (((t : ℕ) : ℚ) / 1000) 60 * 10 ^ 6) : ℚ) / 10 ^ 6⟩] := rfl
  rw [hmapM]
  simp only [List.isEmpty_cons, Bool.false_eq_true, if_false, Option.map_some',
    Option.some.injEq, List.foldl_cons, List.foldl_nil]
  simp only [mul_one, div_one, value_hour, value_minute, value_second]
  rw [render_int_field, render_int_field, render_ss_field]
  rw [show templateHHmmssSss = hhCode ++ (':' :: (mmCode ++ (':' :: ssCode))) from rfl]
  rw [listReplaceFirst_here hhCode _ _ (by decide)]
  rw [listReplaceFirst_skip (padStart 2 '0' (natToDigits (t / 3600000 % 24))) _ mmCode _ 'm'
    (['m']) rfl (char_not_mem_pad_digits 'm' (by decide) _ _)]
  rw [listReplaceFirst_skip_cons ':' _ mmCode _ 'm' (['m']) rfl (by decide)]
  rw [listReplaceFirst_here mmCode _ _ (by decide)]
  rw [listReplaceFirst_skip (padStart 2 '0' (natToDigits (t / 3600000 % 24))) _ ssCode _ 's'
    (['s', '.', 's', 's', 's']) rfl (char_not_mem_pad_digits 's' (by decide) _ _)]
  rw [listReplaceFirst_skip_cons ':' _ ssCode _ 's' (['s', '.', 's', 's', 's']) rfl (by decide)]
  rw [listReplaceFirst_skip (padStart 2 '0' (natToDigits (t / 60000 % 60))) _ ssCode _ 's'
    (['s', '.', 's', 's', 's']) rfl (char_not_mem_pad_digits 's' (by decide) _ _)]
  rw [listReplaceFirst_skip_cons ':' _ ssCode _ 's' (['s', '.', 's', 's', 's']) rfl (by decide)]
  rw [listReplaceFirst_self ssCode _ (by decide)]
  have e1 : t % 60000 / 1000 = t / 1000 % 60 := by omega
  have e2 : t % 60000 % 1000 = t % 1000 := by omega
  rw [e1, e2]
  rfl

theorem natDigitsAux_small (f n : ℕ) (acc : List Char) (h : n < 10) :
    natDigitsAux (f + 1) n acc = Nat.digitChar n :: acc := by
  simp [natDigitsAux, h]

theorem natDigitsAux_step (f n : ℕ) (acc : List Char) (h : ¬ n < 10) :
    natDigitsAux (f + 1) n acc = natDigitsAux f (n / 10) (Nat.digitChar (n % 10) :: acc) := by
  simp [natDigitsAux, h]

theorem natToDigits_lt10 (n : ℕ) (h : n < 10) : natToDigits n = [Nat.digitChar n] :=
  natDigitsAux_small n n [] h

theorem natToDigits_lt100 (n : ℕ) (h10 : 10 ≤ n) (h : n < 100) :
    natToDigits n = [Nat.digitChar (n / 10), Nat.digitChar (n % 10)] := by
  unfold natToDigits
  rw [natDigitsAux_step n n [] (by omega)]
  obtain ⟨f, rfl⟩ : ∃ f, n = f + 1 := ⟨n - 1, by omega⟩
  rw [natDigitsAux_small f ((f + 1) / 10) _ (by omega)]

theorem natToDigits_length_lt100 (n : ℕ) (h : n < 100) :
    (natToDigits n).length = 1 ∨ (natToDigits n).length = 2 := by
  by_cases h10 : n < 10
  · rw [natToDigits_lt10 n h10]
    left; rfl
  · rw [natToDigits_lt100 n (by omega) h]
    right; rfl

theorem natToDigits_length_le3 (n : ℕ) (h : n < 1000) : (natToDigits n).length ≤ 3 := by
  by_cases h10 : n < 10
  · rw [natToDigits_lt10 n h10]
    simp
  · by_cases h100 : n < 100
    · rw [natToDigits_lt100 n (by omega) h100]
      simp
    · unfold natToDigits
      rw [natDigitsAux_step n n [] (by omega)]
      obtain ⟨f, rfl⟩ : ∃ f, n = f + 1 := ⟨n - 1, by omega⟩
      rw [natDigitsAux_step f ((f + 1) / 10) _ (by omega)]
      obtain ⟨g, hg⟩ : ∃ g, f = g + 1 := ⟨f - 1, by omega⟩
      rw [hg]
      rw [natDigitsAux_small g ((g + 1 + 1) / 10 / 10) _ (by omega)]
      rfl

theorem padStart_length_of_le (w : ℕ) (c : Char) (s : List Char) (h : s.length ≤ w) :
    (padStart w c s).length = w := by
  unfold padStart
  simp only [List.length_append, List.length_replicate]
  omega

theorem padStart6_split (X Y : List Char) (hX : X.length = 1 ∨ X.length = 2)
    (hY : Y.length = 3) :
    padStart 6 '0' (X ++ '.' :: Y) = padStart 2 '0' X ++ '.' :: Y := by
  unfold padStart
  rcases hX with h | h <;>
    simp [List.length_append, h, hY, List.append_assoc]

/-- C2 (amended): on every realizable duration — an integer number `t` of
milliseconds, since timestamps are integral — the seconds-with-fraction
field renders as the wrapped integer second followed by exactly
`trunc(f * 10^3)` as three zero-padded fractional digits, where
`f = (t mod 1000) / 1000` is the sub-second remainder; truncation and
rounding coincide there.  (For the non-realizable sub-second remainders the
claim speaks of, the code rounds instead — see the counterexample.) -/
theorem parseTimeCode_fractional_field (t : ℕ) :
    (parseTimeCode ((t : ℕ) : ℚ) ssCode).map EncodedTime.render
      = some (padStart 2 '0' (natToDigits (t / 1000 % 60)) ++ '.' ::
          padStart 3 '0' (natToDigits (t % 1000))) := by
  rw [parseTimeCode_ss, Option.map_some']
  simp only [value_second]
  rw [render_ss_field]
  have e1 : t % 60000 / 1000 = t / 1000 % 60 := by omega
  have e2 : t % 60000 % 1000 = t % 1000 := by omega
  rw [e1, e2]
  apply congrArg
  apply padStart6_split
  · exact natToDigits_length_lt100 _ (by omega)
  · exact padStart_length_of_le 3 '0' _ (natToDigits_length_le3 _ (by omega))

/-- C2 (counterexample): at the claim's own probe — a duration whose
sub-second part is 0.9996 s, i.e. 999.6 ms = 4998/5 — the field renders as
"01.000": the final 3-digit formatting rounds 0.9996 up and carries into
the seconds digits, instead of truncating to fractional digits "999" with
the seconds field unchanged ("00.999"). -/
theorem parseTimeCode_fractional_rounds_up :
    (parseTimeCode (4998 / 5 : ℚ) ssCode).map EncodedTime.render = some ("01.000".data) ∧
      some ("01.000".data) ≠ some ("00.999".data) := by
  constructor
  · rw [parseTimeCode_ss, Option.map_some']
    have h1 : jsMod ((4998 / 5 : ℚ) / 1000) 60 = 2499 / 2500 := by
      unfold jsMod
      rw [jsTrunc_nonneg _ (by norm_num)]
      have hf : ⌊((4998 / 5 : ℚ) / 1000) / 60⌋ = 0 := by
        rw [Int.floor_eq_zero_iff]
        constructor <;> norm_num
      rw [hf]
      norm_num
    rw [h1]
    have h2 : (jsTrunc ((2499 / 2500 : ℚ) * 10 ^ 6) : ℚ) / 10 ^ 6 = 2499 / 2500 := by
      have e : (2499 / 2500 : ℚ) * 10 ^ 6 = ((999600 : ℕ) : ℚ) := by norm_num
      rw [e, jsTrunc_nonneg _ (by positivity), Int.floor_natCast]
      norm_num
    rw [h2]
    refine congrArg some ?_
    show padStart 6 '0' (jsToFixed (2499 / 2500 : ℚ) 3) = "01.000".data
    unfold jsToFixed
    rw [if_neg (by norm_num)]
    unfold jsToFixedNN
    have h3 : ⌊(2499 / 2500 : ℚ) * 10 ^ 3 + 1 / 2⌋ = 1000 := by
      rw [Int.floor_eq_iff]
      constructor <;> norm_num
    rw [h3]
    decide
  · decide

theorem timeSpanToString_natCast (t : ℕ) :
    timeSpanToString 0 ((t : ℕ) : Int) = some (renderedSpan t) := by
  unfold timeSpanToString
  have h : (((t : ℕ) : Int) : ℚ) - ((0 : Int) : ℚ) = ((t : ℕ) : ℚ) := by push_cast; ring
  rw [h, formatTime_natCast]

/-- C8: `timeSpanToString` renders the duration between its two timestamps
in the fixed template "HH:mm:ss.sss" — the five concrete example durations
produce exactly the specified strings. -/
theorem timeSpanToString_examples :
    timeSpanToString 0 19210453 = some ("05:20:10.453".data) ∧
      timeSpanToString 0 3600000 = some ("01:00:00.000".data) ∧
      timeSpanToString 0 1800000 = some ("00:30:00.000".data) ∧
      timeSpanToString 0 20000 = some ("00:00:20.000".data) ∧
      timeSpanToString 0 250 = some ("00:00:00.250".data) := by
  refine ⟨?_, ?_, ?_, ?_, ?_⟩
  · rw [show (19210453 : Int) = ((19210453 : ℕ) : Int) from rfl, timeSpanToString_natCast]
    decide
  · rw [show (3600000 : Int) = ((3600000 : ℕ) : Int) from rfl, timeSpanToString_natCast]
    decide
  · rw [show (1800000 : Int) = ((1800000 : ℕ) : Int) from rfl, timeSpanToString_natCast]
    decide
  · rw [show (20000 : Int) = ((20000 : ℕ) : Int) from rfl, timeSpanToString_natCast]
    decide
  · rw [show (250 : Int) = ((250 : ℕ) : Int) from rfl, timeSpanToString_natCast]
    decide

/-- C7: each field value comes from exact integer arithmetic on the
millisecond duration and wraps independently: the hour field value is
`trunc(t / 3600000) mod 24`, the minute field value `trunc(t / 60000) mod 60`,
the integer part of the seconds field `trunc(t / 1000) mod 60` — and a
duration of exactly 24 hours renders with hour field "00". -/
theorem parseTimeCode_wrap_values (t : ℕ) :
    (parseTimeCode ((t : ℕ) : ℚ) hhCode).map EncodedTime.value
        = some ((t / 3600000 % 24 : ℕ) : ℚ) ∧
      (parseTimeCode ((t : ℕ) : ℚ) mmCode).map EncodedTime.value
        = some ((t / 60000 % 60 : ℕ) : ℚ) ∧
      (parseTimeCode ((t : ℕ) : ℚ) ssCode).map (fun e => jsTrunc e.value)
        = some ((t / 1000 % 60 : ℕ) : ℤ) ∧
      timeSpanToString 0 86400000 = some ("00:00:00.000".data) := by
  refine ⟨?_, ?_, ?_, ?_⟩
  · rw [parseTimeCode_hh, Option.map_some']
    simp only [mul_one, div_one, value_hour]
  · rw [parseTimeCode_mm, Option.map_some']
    simp only [mul_one, div_one, value_minute]
  · rw [parseTimeCode_ss, Option.map_some']
    simp only [value_second]
    have hfloor : ⌊((t % 60000 : ℕ) : ℚ) / 1000⌋ = ((t % 60000 / 1000 : ℕ) : ℤ) := by
      have h := floor_natCast_div (t % 60000) 1000
      exact_mod_cast h
    rw [jsTrunc_nonneg _ (by positivity), hfloor]
    have e1 : t % 60000 / 1000 = t / 1000 % 60 := by omega
    rw [e1]
  · rw [show (86400000 : Int) = ((86400000 : ℕ) : Int) from rfl, timeSpanToString_natCast]
    decide

/-- C10: `timeSpanToString` is total: the fixed template's scan yields the
non-empty match list, every field begins with a recognized unit character
(its dictionary lookup succeeds), and for every pair of timestamps the
function returns a string rather than hitting an error branch. -/
theorem timeSpanToString_total (s e : Int) :
    wordRuns templateHHmmssSss ≠ [] ∧
      (∀ code ∈ wordRuns templateHHmmssSss,
        ((firstWordChar code).bind timeCodeDict).isSome = true) ∧
      ∃ out, timeSpanToString s e = some out :=
  ⟨by decide, by decide, ⟨_, rfl⟩⟩

/-! ## §8 Parse-delegation theorems (claim C3) -/

/-- C3 (counterexample): on a string matching no date grammar, both parse
functions return the NaN sentinel — they do not fail with a distinguishable
`ParseError`. -/
theorem parse_returns_nan_counterexample :
    parseDataFromRfc2822 "hello, world" = JsOutcome.ret none ∧
      parseDataFromIso8601 "hello, world" = JsOutcome.ret none ∧
      JsOutcome.ret none ≠ JsOutcome.thrown := by
  refine ⟨?_, ?_, by decide⟩ <;> rfl

/-- C3 (amended): whenever the delegated standard parser fails on the
input, `parseDataFromRfc2822` and `parseDataFromIso8601` return the NaN
sentinel (an invalid timestamp value) and raise nothing: the delegation
`return Date.parse(value)` has no error channel. -/
theorem parse_returns_sentinel (value : String) (h : jsDateParse value = none) :
    parseDataFromRfc2822 value = JsOutcome.ret none ∧
      parseDataFromIso8601 value = JsOutcome.ret none := by
  unfold parseDataFromRfc2822 parseDataFromIso8601
  rw [h]
  exact ⟨rfl, rfl⟩

/-- C3 (witness): the amended theorem applied at a concrete malformed
input. -/
theorem parse_returns_sentinel_witness :
    parseDataFromRfc2822 "hello, world" = JsOutcome.ret none ∧
      parseDataFromIso8601 "hello, world" = JsOutcome.ret none :=
  parse_returns_sentinel "hello, world" (by decide)
